import Mathlib

/-!
Verification of the Polyglot Media Analyzer backend.

Shallow embedding of the Python services in
`backend/app/services/highlight_generator.py`,
`backend/app/services/streaming_service.py`,
`backend/app/services/ai_services.py` and the API layer
`backend/app/api/media.py`.  Python floats are modelled as exact
rationals (`ℚ`), Python lists as `List`, dict-shaped payloads as
structures, and exceptions as `Except` / `Option` results.  External
neural models (sentiment classifier, emotion classifier, sentence
embedder, object detector, ASR) are oracles passed in as function
arguments, exactly at the call boundary the source uses.
-/

namespace PolyglotMedia

/-- A transcription segment as consumed by `HighlightGenerator`
(`trans_seg.get("start_time")`, `trans_seg.get("text")`, and the
`end_time` key present on transcript segments). -/
structure TransSeg where
  start_time : ℚ
  end_time : ℚ
  text : String
deriving DecidableEq, Repr

/-- A scoring time segment built by `_create_time_segments`
(`{"start": ..., "end": ..., "text": ...}`); the dict key `end` is a
Lean keyword, rendered `stop`. -/
structure TimeSeg where
  start : ℚ
  stop : ℚ
  text : String
deriving DecidableEq, Repr

/-- One step of the loop body of `_create_time_segments`: either close the
current segment and open the next 30-second window, or append the
transcript text to the running segment. -/
def createTimeSegmentsStep (acc : List TimeSeg × TimeSeg) (t : TransSeg) :
    List TimeSeg × TimeSeg :=
  let (segs, cur) := acc
  if t.start_time > cur.stop then
    (segs ++ [cur],
     { start := cur.stop, stop := cur.stop + 30, text := t.text })
  else
    (segs, { cur with text := cur.text ++ " " ++ t.text })

/-- `HighlightGenerator._create_time_segments`: walk the transcription
segments grouping text into 30-second windows starting from
`{"start": 0, "end": 30, "text": ""}`; the final running segment is
appended only when its text is non-empty (Python truthiness of the
string). -/
def createTimeSegments (transcription_segments : List TransSeg) :
    List TimeSeg :=
  match transcription_segments with
  | [] => []
  | _ =>
    let (segs, cur) := transcription_segments.foldl createTimeSegmentsStep
      ([], { start := 0, stop := 30, text := "" })
    if cur.text ≠ "" then segs ++ [cur] else segs

/-- A time value lies inside a `TimeSeg` (closed interval, as in the
Python comparisons `segment["start"] <= t <= segment["end"]`). -/
def segContains (s : TimeSeg) (t : ℚ) : Prop :=
  s.start ≤ t ∧ t ≤ s.stop

instance (s : TimeSeg) (t : ℚ) : Decidable (segContains s t) := by
  unfold segContains; infer_instance

/-- Invariant of the `_create_time_segments` loop: the closed segments
are the consecutive 30-second windows, and the running segment is the
next window. -/
def SegChain (segs : List TimeSeg) (cur : TimeSeg) : Prop :=
  cur.start = 30 * segs.length ∧ cur.stop = cur.start + 30 ∧
  ∀ i (h : i < segs.length),
    (segs.get ⟨i, h⟩).start = 30 * i ∧ (segs.get ⟨i, h⟩).stop = 30 * i + 30

/-- An emotional peak from `_detect_emotional_peaks`
(`{"start", "end", "emotion", "confidence"}`); the confidence comes from
the external emotion classifier.  The dict key `end` is rendered
`stop`. -/
structure EmotionPeak where
  start : ℚ
  stop : ℚ
  emotion : String
  confidence : ℚ
deriving DecidableEq, Repr

/-- A sentiment transition from `_detect_sentiment_changes`
(`{"timestamp", "from_sentiment", "to_sentiment", "intensity"}`). -/
structure SentimentChange where
  timestamp : ℚ
  from_sentiment : String
  to_sentiment : String
  intensity : ℚ
deriving DecidableEq, Repr

/-- A topic transition from `_detect_topic_transitions`
(`{"timestamp", "similarity", "intensity"}`). -/
structure TopicTransition where
  timestamp : ℚ
  similarity : ℚ
  intensity : ℚ
deriving DecidableEq, Repr

/-- A visual activity spike from `_detect_visual_activity_spikes`
(`{"timestamp", "activity_level"}`). -/
structure VisualSpike where
  timestamp : ℚ
  activity_level : ℚ
deriving DecidableEq, Repr

/-- `_get_emotion_score_for_segment`: running maximum of the confidences
of the emotion peaks whose interval overlaps the segment. -/
def getEmotionScoreForSegment (emotion_peaks : List EmotionPeak)
    (segment : TimeSeg) : ℚ :=
  emotion_peaks.foldl
    (fun score peak =>
      if peak.start ≤ segment.stop ∧ peak.stop ≥ segment.start then
        max score peak.confidence
      else score) 0

/-- `_get_sentiment_change_score`: running maximum of the intensities of
the sentiment changes whose timestamp lies in the segment. -/
def getSentimentChangeScore (sentiment_changes : List SentimentChange)
    (segment : TimeSeg) : ℚ :=
  sentiment_changes.foldl
    (fun score change =>
      if segment.start ≤ change.timestamp ∧ change.timestamp ≤ segment.stop then
        max score change.intensity
      else score) 0

/-- `_get_topic_transition_score`: running maximum of the intensities of
the topic transitions whose timestamp lies in the segment. -/
def getTopicTransitionScore (topic_transitions : List TopicTransition)
    (segment : TimeSeg) : ℚ :=
  topic_transitions.foldl
    (fun score transition =>
      if segment.start ≤ transition.timestamp ∧
          transition.timestamp ≤ segment.stop then
        max score transition.intensity
      else score) 0

/-- `_get_visual_activity_score`: running maximum of the activity levels
of the visual spikes whose timestamp lies in the segment. -/
def getVisualActivityScore (visual_spikes : List VisualSpike)
    (segment : TimeSeg) : ℚ :=
  visual_spikes.foldl
    (fun score spike =>
      if segment.start ≤ spike.timestamp ∧ spike.timestamp ≤ segment.stop then
        max score spike.activity_level
      else score) 0

/-- The fused score accumulated by the scoring loop of
`detect_highlight_moments`:
`score += emotion*0.3; += sentiment*0.25; += topic*0.25; += visual*0.2`. -/
def fusedScore (emotion_peaks : List EmotionPeak)
    (sentiment_changes : List SentimentChange)
    (topic_transitions : List TopicTransition)
    (visual_spikes : List VisualSpike) (segment : TimeSeg) : ℚ :=
  getEmotionScoreForSegment emotion_peaks segment * (3 / 10) +
    getSentimentChangeScore sentiment_changes segment * (1 / 4) +
    getTopicTransitionScore topic_transitions segment * (1 / 4) +
    getVisualActivityScore visual_spikes segment * (1 / 5)

/-- A human-readable reason string appended by the scoring loop, tagged
by which branch produced it; the payload is the signal score that the
Python code interpolates into the string (`f"... ({score:.2f})"`). -/
inductive Reason where
  | highEmotionalContent (score : ℚ)
  | sentimentTransition (score : ℚ)
  | topicChange (score : ℚ)
  | highVisualActivity (score : ℚ)
deriving DecidableEq, Repr

/-- The reasons appended by the scoring loop of
`detect_highlight_moments`, in source order: emotion when `> 0.7`,
sentiment when `> 0.6`, topic when `> 0.6`, visual when `> 0.7`. -/
def segmentReasons (emotion_peaks : List EmotionPeak)
    (sentiment_changes : List SentimentChange)
    (topic_transitions : List TopicTransition)
    (visual_spikes : List VisualSpike) (segment : TimeSeg) : List Reason :=
  (if getEmotionScoreForSegment emotion_peaks segment > 7 / 10 then
    [Reason.highEmotionalContent
      (getEmotionScoreForSegment emotion_peaks segment)] else []) ++
  (if getSentimentChangeScore sentiment_changes segment > 3 / 5 then
    [Reason.sentimentTransition
      (getSentimentChangeScore sentiment_changes segment)] else []) ++
  (if getTopicTransitionScore topic_transitions segment > 3 / 5 then
    [Reason.topicChange
      (getTopicTransitionScore topic_transitions segment)] else []) ++
  (if getVisualActivityScore visual_spikes segment > 7 / 10 then
    [Reason.highVisualActivity
      (getVisualActivityScore visual_spikes segment)] else [])

/-- `_classify_highlight_type`: first matching reason kind in priority
order emotional > sentiment > topic > visual, else general interest
(the Python substring tests `"emotional" in reason.lower()` etc. match
exactly one reason kind each). -/
def classifyHighlightType (reasons : List Reason) : String :=
  if reasons.any fun r => match r with
      | Reason.highEmotionalContent _ => true | _ => false then
    "emotional_moment"
  else if reasons.any fun r => match r with
      | Reason.sentimentTransition _ => true | _ => false then
    "sentiment_shift"
  else if reasons.any fun r => match r with
      | Reason.topicChange _ => true | _ => false then
    "topic_transition"
  else if reasons.any fun r => match r with
      | Reason.highVisualActivity _ => true | _ => false then
    "visual_activity"
  else "general_interest"

/-- A highlight candidate dict appended by `detect_highlight_moments`
(`{"start_time", "end_time", "score", "reasons", "text", "type"}`). -/
structure Highlight where
  start_time : ℚ
  end_time : ℚ
  score : ℚ
  reasons : List Reason
  text : String
  type : String
deriving DecidableEq, Repr

/-- The candidate dict built for one segment by the scoring loop. -/
def mkHighlight (emotion_peaks : List EmotionPeak)
    (sentiment_changes : List SentimentChange)
    (topic_transitions : List TopicTransition)
    (visual_spikes : List VisualSpike) (segment : TimeSeg) : Highlight :=
  { start_time := segment.start
    end_time := segment.stop
    score := fusedScore emotion_peaks sentiment_changes topic_transitions
      visual_spikes segment
    reasons := segmentReasons emotion_peaks sentiment_changes
      topic_transitions visual_spikes segment
    text := segment.text
    type := classifyHighlightType (segmentReasons emotion_peaks
      sentiment_changes topic_transitions visual_spikes segment) }

/-- The highlights list built by the scoring loop of
`detect_highlight_moments`: one candidate per time segment whose fused
score is strictly above `0.5`, in segment order. -/
def highlightCandidates (transcription_segments : List TransSeg)
    (emotion_peaks : List EmotionPeak)
    (sentiment_changes : List SentimentChange)
    (topic_transitions : List TopicTransition)
    (visual_spikes : List VisualSpike) : List Highlight :=
  (createTimeSegments transcription_segments).filterMap fun segment =>
    if fusedScore emotion_peaks sentiment_changes topic_transitions
        visual_spikes segment > 1 / 2 then
      some (mkHighlight emotion_peaks sentiment_changes topic_transitions
        visual_spikes segment)
    else none

/-- The ordering used by `highlights.sort(key=lambda x: x["score"],
reverse=True)`: descending score; `insertionSort` with this relation is
stable like CPython's sort. -/
def scoreGE (a b : Highlight) : Prop := b.score ≤ a.score

instance : DecidableRel scoreGE := fun a b => by
  unfold scoreGE; infer_instance

instance : IsTotal Highlight scoreGE :=
  ⟨fun a b => le_total b.score a.score⟩

instance : IsTrans Highlight scoreGE :=
  ⟨fun _ _ _ hab hbc => le_trans hbc hab⟩

/-- `detect_highlight_moments` after the scoring loop: sort the
candidates by score descending (stable) and return the top 10. -/
def detectHighlightMoments (transcription_segments : List TransSeg)
    (emotion_peaks : List EmotionPeak)
    (sentiment_changes : List SentimentChange)
    (topic_transitions : List TopicTransition)
    (visual_spikes : List VisualSpike) : List Highlight :=
  ((highlightCandidates transcription_segments emotion_peaks
    sentiment_changes topic_transitions visual_spikes).insertionSort
      scoreGE).take 10

/-- One sentiment result dict built by
`SentimentAnalysisService.analyze_sentiment`
(`{"segment", "sentiment", "confidence_score", "segment_index"}`). -/
structure SentimentSegment where
  segment : List Char
  sentiment : String
  confidence_score : ℚ
  segment_index : ℕ
deriving DecidableEq, Repr

/-- The chunking `[text[i:i+512] for i in range(0, len(text), 512)]` of
`analyze_sentiment` (`max_length = 512`), on the character list of the
input text. -/
def chunksOf512 : List Char → List (List Char)
  | [] => []
  | c :: rest => (c :: rest).take 512 :: chunksOf512 ((c :: rest).drop 512)
termination_by l => l.length
decreasing_by
  simp only [List.length_drop, List.length_cons]
  omega

/-- The per-chunk loop of `analyze_sentiment`: enumerate the 512-char
chunks, skip chunks that are empty after `strip()` (i.e. all
whitespace), and record the external classifier's label and confidence
together with the chunk's enumeration index (`segment_index`).
`classify` is the oracle for the sentiment-analysis model
(`label`, `score`). -/
def analyzeSentimentSegments (text : List Char)
    (classify : List Char → String × ℚ) : List SentimentSegment :=
  (chunksOf512 text).enum.filterMap fun p =>
    if p.2.any (fun ch => ¬ ch.isWhitespace) then
      some { segment := p.2
             sentiment := (classify p.2).1
             confidence_score := (classify p.2).2
             segment_index := p.1 }
    else none

/-- `HighlightGenerator._detect_sentiment_changes`: walk consecutive
pairs of sentiment segments; on a label flip emit a change whose
timestamp is `segments[i]["segment_index"] * 512` and whose intensity is
the absolute confidence difference.  (The empty-input guard of the
source is subsumed: an empty or singleton list yields no pairs.) -/
def detectSentimentChanges (segments : List SentimentSegment) :
    List SentimentChange :=
  (segments.zip segments.tail).filterMap fun p =>
    if p.1.sentiment ≠ p.2.sentiment then
      some { timestamp := (p.2.segment_index : ℚ) * 512
             from_sentiment := p.1.sentiment
             to_sentiment := p.2.sentiment
             intensity := |p.2.confidence_score - p.1.confidence_score| }
    else none

/-- `HighlightGenerator._detect_topic_transitions`: fewer than two
transcription segments yield no transitions; otherwise for each index
`i ≥ 1` the cosine similarity between the sentence embeddings of texts
`i-1` and `i` is computed and, when it is below the `0.3` threshold, a
transition with `intensity = 1 - similarity` is emitted at the `i`-th
transcript's start time.  `sim i` is the oracle for that cosine
similarity (the sentence-embedding model is external); an actual cosine
always lies in `[-1, 1]`, which the theorems take as a hypothesis. -/
def detectTopicTransitions (transcription_segments : List TransSeg)
    (sim : ℕ → ℚ) : List TopicTransition :=
  if transcription_segments.length < 2 then []
  else
    transcription_segments.tail.enum.filterMap fun p =>
      if sim (p.1 + 1) < 3 / 10 then
        some { timestamp := p.2.start_time
               similarity := sim (p.1 + 1)
               intensity := 1 - sim (p.1 + 1) }
      else none

/-- The ordering used by reel assembly:
`sorted(highlights, key=lambda x: (x["score"], x["start_time"]),
reverse=True)` — descending lexicographic on (score, start time). -/
def reelKeyGE (a b : Highlight) : Prop :=
  b.score < a.score ∨ (b.score = a.score ∧ b.start_time ≤ a.start_time)

instance : DecidableRel reelKeyGE := fun a b => by
  unfold reelKeyGE; infer_instance

/-- One clip extracted by `create_smart_highlight_reel`
(`video.subclip(start, end)`). -/
structure Clip where
  start : ℚ
  stop : ℚ
deriving DecidableEq, Repr

/-- The running state of the clip-accepting loop of
`create_smart_highlight_reel`: accepted clips, cumulative duration, and
whether the trim-to-fit branch has executed. -/
structure ReelState where
  clips : List Clip
  total_duration : ℚ
  trimmed : Bool
deriving DecidableEq, Repr

/-- The clip-accepting loop of `create_smart_highlight_reel`: stop once
`total_duration >= max_duration`; otherwise pad the candidate by 2s on
both sides clamped to `[0, video.duration]`, trim it to the remaining
budget when it would overflow, and accumulate. -/
def reelLoop (video_duration max_duration : ℚ) :
    List Highlight → ReelState → ReelState
  | [], st => st
  | h :: rest, st =>
    if st.total_duration ≥ max_duration then st
    else
      let s := max 0 (h.start_time - 2)
      let e := min video_duration (h.end_time + 2)
      let d := e - s
      if st.total_duration + d > max_duration then
        reelLoop video_duration max_duration rest
          { clips := st.clips ++ [⟨s, s + (max_duration - st.total_duration)⟩]
            total_duration := st.total_duration +
              (max_duration - st.total_duration)
            trimmed := true }
      else
        reelLoop video_duration max_duration rest
          { clips := st.clips ++ [⟨s, e⟩]
            total_duration := st.total_duration + d
            trimmed := st.trimmed }

/-- `create_smart_highlight_reel` (clip-selection part): sort the
candidates by (score desc, start-time desc) and run the accepting loop
with an empty state; `max_duration` defaults to 120 in the source. -/
def createSmartHighlightReel (video_duration : ℚ)
    (highlights : List Highlight) (max_duration : ℚ) : ReelState :=
  reelLoop video_duration max_duration
    (highlights.insertionSort reelKeyGE) ⟨[], 0, false⟩

/-- The transcription dict returned by `ASRService.transcribe_audio`,
restricted to the field the streaming service reads
(`transcription["text"]`). -/
structure TranscriptionResult where
  text : String
deriving DecidableEq, Repr

/-- The sentiment dict returned by `analyze_sentiment`, restricted to
the field the streaming service reads
(`sentiment["overall_sentiment"]`). -/
structure SentimentResult where
  overall_sentiment : String
deriving DecidableEq, Repr

/-- One entry of a streaming session's result history
(`{"timestamp", "transcription", "sentiment", "session_id"}`). -/
structure StreamResult where
  timestamp : ℕ
  transcription : TranscriptionResult
  sentiment : SentimentResult
  session_id : String
deriving DecidableEq, Repr

/-- One streaming session's state (`{"buffer": [], "results": []}`; the
stored `config` is never read afterwards and is omitted).  Audio chunks
are byte strings, modelled as lists of byte values. -/
structure Session where
  buffer : List (List ℕ)
  results : List StreamResult
deriving DecidableEq, Repr

/-- The `active_streams` dict of `StreamingService`, as a finite map
from session id to session state. -/
def Registry : Type := String → Option Session

/-- Dict assignment `self.active_streams[session_id] = ...`. -/
def registrySet (reg : Registry) (session_id : String) (s : Session) :
    Registry :=
  fun x => if x = session_id then some s else reg x

/-- `del self.active_streams[session_id]`. -/
def registryDel (reg : Registry) (session_id : String) : Registry :=
  fun x => if x = session_id then none else reg x

/-- `StreamingService.start_streaming_session`: register a fresh session
(silently overwriting any previous session with the same id). -/
def startStreamingSession (reg : Registry) (session_id : String) :
    Registry :=
  registrySet reg session_id ⟨[], []⟩

/-- The errors raised by the streaming service:
`ValueError(f"Session {session_id} not found")` — the spec's
`NotFoundError` — and a failed Inference Gateway call propagating out of
the method (the spec's `InferenceError`). -/
inductive StreamError where
  | sessionNotFound (session_id : String)
  | inferenceFailure
deriving DecidableEq, Repr

/-- The value returned by `process_audio_chunk`: either the
`{"status": "buffering"}` dict or a completed inference result. -/
inductive AudioResponse where
  | buffering
  | result (r : StreamResult)
deriving DecidableEq, Repr

/-- `StreamingService.process_audio_chunk`.  The ASR and sentiment
capabilities are oracles returning `none` on failure (a raised
exception).  The returned registry reflects the in-place mutations the
Python method performed before returning or raising: the chunk is
appended first; on a full buffer the buffered bytes are concatenated
and transcribed, and only after both capability calls succeed is the
result appended and the buffer cleared. -/
def processAudioChunk (transcribe : List ℕ → Option TranscriptionResult)
    (analyze_sentiment : String → Option SentimentResult)
    (reg : Registry) (session_id : String) (audio_chunk : List ℕ) :
    Except StreamError AudioResponse × Registry :=
  match reg session_id with
  | none => (Except.error (StreamError.sessionNotFound session_id), reg)
  | some session =>
    let buffer1 := session.buffer ++ [audio_chunk]
    if 5 ≤ buffer1.length then
      let combined_audio := buffer1.flatten
      match transcribe combined_audio with
      | none =>
        (Except.error StreamError.inferenceFailure,
         registrySet reg session_id { session with buffer := buffer1 })
      | some transcription =>
        match analyze_sentiment transcription.text with
        | none =>
          (Except.error StreamError.inferenceFailure,
           registrySet reg session_id { session with buffer := buffer1 })
        | some sentiment =>
          let r : StreamResult :=
            { timestamp := session.results.length * 5
              transcription := transcription
              sentiment := sentiment
              session_id := session_id }
          (Except.ok (AudioResponse.result r),
           registrySet reg session_id
             { buffer := [], results := session.results ++ [r] })
    else
      (Except.ok AudioResponse.buffering,
       registrySet reg session_id { session with buffer := buffer1 })

/-- An object reported by the external object detector. -/
structure DetectedObject where
  label : String
  confidence : ℚ
deriving DecidableEq, Repr

/-- The value returned by `process_video_frame`: the
`{"status": "skipped_frame"}` dict or a detection result
(`{"frame_number", "objects", "timestamp", "session_id"}`). -/
inductive FrameResponse where
  | skippedFrame
  | detection (frame_number : ℕ) (objects : List DetectedObject)
      (timestamp : ℚ) (session_id : String)
deriving DecidableEq, Repr

/-- `StreamingService.process_video_frame`.  `detect` is the oracle for
frame decoding plus `_detect_objects_in_frame`.  The source computes
`frame_count = len(self.active_streams[session_id]["results"])` — the
number of audio inference results, not a count of incoming frames — and
runs detection exactly when `frame_count % 10 == 0`; the session state
is never modified. -/
def processVideoFrame (detect : List ℕ → List DetectedObject)
    (reg : Registry) (session_id : String) (frame_data : List ℕ) :
    Except StreamError FrameResponse × Registry :=
  match reg session_id with
  | none => (Except.error (StreamError.sessionNotFound session_id), reg)
  | some session =>
    let frame_count := session.results.length
    if frame_count % 10 = 0 then
      (Except.ok (FrameResponse.detection frame_count (detect frame_data)
        ((frame_count : ℚ) / 30) session_id), reg)
    else
      (Except.ok FrameResponse.skippedFrame, reg)

/-- Python `str.split()` with no argument: split on whitespace runs and
drop empty pieces. -/
def pySplitWhitespace (s : String) : List String :=
  (s.split fun c => c.isWhitespace).filter fun w => w ≠ ""

/-- The aggregate insights dict built by `get_live_insights`. -/
structure LiveInsights where
  session_duration : ℕ
  total_words : ℕ
  sentiment_trend : String
  current_sentiment : String
  recent_transcription : String
  session_id : String
deriving DecidableEq, Repr

/-- The value returned by `get_live_insights`: the
`{"status": "no_data"}` dict for an empty result history, else the
aggregate. -/
inductive InsightsResponse where
  | noData
  | insights (i : LiveInsights)
deriving DecidableEq, Repr

/-- `StreamingService.get_live_insights`: aggregate the session's result
history — joined transcript word count, trend over the last three
sentiment labels, latest sentiment and transcription. -/
def getLiveInsights (reg : Registry) (session_id : String) :
    Except StreamError InsightsResponse :=
  match reg session_id with
  | none => Except.error (StreamError.sessionNotFound session_id)
  | some session =>
    let results := session.results
    if results.length = 0 then Except.ok InsightsResponse.noData
    else
      let all_text := String.intercalate " "
        (results.map fun r => r.transcription.text)
      let sentiments := results.map fun r => r.sentiment.overall_sentiment
      let recent := sentiments.drop (sentiments.length - 3)
      let sentiment_trend :=
        if 3 ≤ sentiments.length then
          if recent.all (fun s => s = "positive") then "improving"
          else if recent.all (fun s => s = "negative") then "declining"
          else "stable"
        else "stable"
      Except.ok (InsightsResponse.insights
        { session_duration := results.length * 5
          total_words := (pySplitWhitespace all_text).length
          sentiment_trend := sentiment_trend
          current_sentiment := (sentiments.getLast?).getD "neutral"
          recent_transcription :=
            ((results.getLast?).map fun r => r.transcription.text).getD ""
          session_id := session_id })

/-- `StreamingService.end_streaming_session`: compute the final insights
from the still-registered session, then delete it from the registry and
return the summary. -/
def endStreamingSession (reg : Registry) (session_id : String) :
    Except StreamError InsightsResponse × Registry :=
  match reg session_id with
  | none => (Except.error (StreamError.sessionNotFound session_id), reg)
  | some _ =>
    (getLiveInsights reg session_id, registryDel reg session_id)

/-- The transcription payload produced by `transcribe_audio` and stored
by the pipeline (fields the pipeline reads or copies into the
`Transcription` row). -/
structure TranscribeOutput where
  text : String
  language : String
  confidence_score : ℚ
deriving DecidableEq, Repr

/-- The payload of `summarize_text`, stored in the `Summary` row. -/
structure SummaryOutput where
  summary_text : String
  summary_type : String
deriving DecidableEq, Repr

/-- The part of `analyze_sentiment`'s output the pipeline stores: one
`SentimentAnalysis` row per segment. -/
structure SentimentOutput where
  overall_sentiment : String
  segments : List SentimentSegment
deriving DecidableEq, Repr

/-- One `ObjectDetection` row (`{"timestamp", "objects"}`). -/
structure ObjectDetectionRow where
  timestamp : ℚ
  objects : List DetectedObject
deriving DecidableEq, Repr

/-- Outcomes of the external calls made by `process_media_file`; `none`
(or `false`) models the call raising an exception. -/
structure PipelineOracles where
  extract_audio_ok : Bool
  transcribe : Option TranscribeOutput
  summarize : String → Option SummaryOutput
  sentiment : String → Option SentimentOutput
  detect_objects : Option (List ObjectDetectionRow)
  index_ok : Bool

/-- The database rows relevant to one media file, as read by the status
endpoint and written by the pipeline.  `processing_results` is the
`ProcessingResult` table ((task_type, result_data) pairs) that
`get_processing_status` compiles its stage map from; the remaining
fields are the `Transcription`, `Summary`, `SentimentAnalysis` and
`ObjectDetection` tables. -/
structure Db where
  status : String
  processing_results : List (String × String)
  transcriptions : List TranscribeOutput
  summaries : List SummaryOutput
  sentiments : List SentimentSegment
  object_detections : List ObjectDetectionRow
deriving DecidableEq, Repr

/-- `process_media_file`: set the job status to `"processing"` (first
commit); run audio extraction (video only), transcription,
summarization, sentiment, object detection (video only) in order; on
any stage failure the open session's pending row inserts are rolled
back and a fresh session sets status `"error"`; on success all stage
rows are committed together with status `"completed"`, after which
index publication runs with its failure swallowed (`index_media_content`
logs and returns), leaving the database unchanged either way.  No path
ever inserts a `ProcessingResult` row. -/
def processMediaFile (db : Db) (file_type : String)
    (o : PipelineOracles) : Db :=
  let dbp := { db with status := "processing" }
  if file_type = "video" ∧ o.extract_audio_ok = false then
    { dbp with status := "error" }
  else
    match o.transcribe with
    | none => { dbp with status := "error" }
    | some tr =>
      match o.summarize tr.text with
      | none => { dbp with status := "error" }
      | some sm =>
        match o.sentiment tr.text with
        | none => { dbp with status := "error" }
        | some st =>
          match (if file_type = "video" then o.detect_objects
                 else some []) with
          | none => { dbp with status := "error" }
          | some objs =>
            { dbp with
              status := "completed"
              transcriptions := dbp.transcriptions ++ [tr]
              summaries := dbp.summaries ++ [sm]
              sentiments := dbp.sentiments ++ st.segments
              object_detections := dbp.object_detections ++ objs }

/-- The body of the `ProcessingStatus` response of
`get_processing_status` for an existing file: the file's status plus
the task-type → result-data dict compiled from the `ProcessingResult`
rows (`results if results else None`). -/
structure StatusResponse where
  status : String
  results : Option (List (String × String))
deriving DecidableEq, Repr

/-- `get_processing_status` (existing-file path). -/
def getProcessingStatus (db : Db) : StatusResponse :=
  { status := db.status
    results := if db.processing_results = [] then none
               else some db.processing_results }

lemma segChain_step (segs : List TimeSeg) (cur : TimeSeg) (t : TransSeg)
    (h : SegChain segs cur) :
    SegChain (createTimeSegmentsStep (segs, cur) t).1
      (createTimeSegmentsStep (segs, cur) t).2 := by
  obtain ⟨h1, h2, h3⟩ := h
  unfold createTimeSegmentsStep
  by_cases hgt : t.start_time > cur.stop
  · simp only [hgt, if_pos]
    refine ⟨?_, ?_, ?_⟩
    · simp [h2, h1, mul_add]
    · rfl
    · intro i hi
      simp only [List.length_append, List.length_cons, List.length_nil] at hi
      rcases Nat.lt_or_ge i segs.length with hlt | hge
      · rw [List.get_append _ hlt]
        exact h3 i hlt
      · have hieq : i = segs.length := by omega
        subst hieq
        have : (segs ++ [cur]).get ⟨segs.length, by simp⟩ = cur := by
          simp
        rw [this]
        exact ⟨h1, by rw [h2, h1]⟩
  · simp only [hgt, if_neg, not_false_iff]
    exact ⟨h1, h2, h3⟩

lemma segChain_foldl (l : List TransSeg) :
    ∀ (segs : List TimeSeg) (cur : TimeSeg), SegChain segs cur →
      SegChain (l.foldl createTimeSegmentsStep (segs, cur)).1
        (l.foldl createTimeSegmentsStep (segs, cur)).2 := by
  induction l with
  | nil => intro segs cur h; exact h
  | cons t rest ih =>
    intro segs cur h
    have hstep := segChain_step segs cur t h
    simpa [List.foldl_cons] using
      ih (createTimeSegmentsStep (segs, cur) t).1
        (createTimeSegmentsStep (segs, cur) t).2 hstep

/-- Structure of the output of `_create_time_segments`: the `i`-th
produced segment is exactly the window `[30·i, 30·(i+1)]`. -/
lemma createTimeSegments_get (ts : List TransSeg) (i : ℕ)
    (h : i < (createTimeSegments ts).length) :
    ((createTimeSegments ts).get ⟨i, h⟩).start = 30 * i ∧
      ((createTimeSegments ts).get ⟨i, h⟩).stop = 30 * i + 30 := by
  match ts with
  | [] => simp [createTimeSegments] at h
  | t₀ :: rest =>
    have hinit : SegChain [] { start := 0, stop := 30, text := "" } := by
      refine ⟨by simp, by norm_num, ?_⟩
      intro i hi; simp at hi
    have hfold := segChain_foldl (t₀ :: rest) [] _ hinit
    set res := (t₀ :: rest).foldl createTimeSegmentsStep
      ([], { start := 0, stop := 30, text := "" }) with hres
    obtain ⟨h1, h2, h3⟩ := hfold
    have hdef : createTimeSegments (t₀ :: rest) =
        if res.2.text ≠ "" then res.1 ++ [res.2] else res.1 := by
      simp only [createTimeSegments, hres]
    revert h
    rw [hdef]
    by_cases htext : res.2.text ≠ ""
    · rw [if_pos htext]
      intro h
      simp only [List.length_append, List.length_cons, List.length_nil] at h
      rcases Nat.lt_or_ge i res.1.length with hlt | hge
      · rw [List.get_append _ hlt]
        exact h3 i hlt
      · have hieq : i = res.1.length := by omega
        subst hieq
        have hg : (res.1 ++ [res.2]).get ⟨res.1.length, by simp⟩ = res.2 := by
          simp
        rw [hg]
        exact ⟨h1, by rw [h2, h1]⟩
    · rw [if_neg htext]
      intro h
      exact h3 i h

/-- C1 (counterexample): with transcription segments
`[{start 0, end 100, "a"}, {start 100, end 101, "b"}]`
(`lastTranscriptEnd = 101`), `_create_time_segments` produces
`[[0,30], [30,60]]`: the time `t = 80 ∈ [0, 101]` lies in no produced
segment, so the segments do not cover `[0, lastTranscriptEnd]`; and the
segment holding the text `"b"` is `[30,60]`, which does not contain
that transcript's start time `100`. -/
theorem claim_C1_counterexample :
    (¬ ∀ t : ℚ, 0 ≤ t → t ≤ 101 →
        ∃ s ∈ createTimeSegments
          [⟨0, 100, "a"⟩, ⟨100, 101, "b"⟩], segContains s t) ∧
    (¬ ∀ s ∈ createTimeSegments [⟨0, 100, "a"⟩, ⟨100, 101, "b"⟩],
        s.text = "b" → segContains s 100) := by
  have heq : createTimeSegments [⟨0, 100, "a"⟩, ⟨100, 101, "b"⟩] =
      [⟨0, 30, " a"⟩, ⟨30, 60, "b"⟩] := by
    norm_num [createTimeSegments, createTimeSegmentsStep]
    decide
  constructor
  · intro hcov
    obtain ⟨s, hs, hc⟩ := hcov 80 (by norm_num) (by norm_num)
    rw [heq] at hs
    simp only [List.mem_cons, List.not_mem_nil, or_false] at hs
    rcases hs with hs | hs <;> subst hs <;>
      · obtain ⟨hc1, hc2⟩ := hc
        norm_num at hc1 hc2
  · intro hall
    have hmem : (⟨30, 60, "b"⟩ : TimeSeg) ∈
        createTimeSegments [⟨0, 100, "a"⟩, ⟨100, 101, "b"⟩] := by
      rw [heq]; simp
    obtain ⟨hc1, hc2⟩ := hall ⟨30, 60, "b"⟩ hmem rfl
    norm_num at hc2

/-- C1 (amended): derivation of TimeSegments is deterministic (the
embedding of `_create_time_segments` is a pure function), the `i`-th
segment is exactly the window `[30·i, 30·(i+1)]`, and distinct segments
never overlap (the earlier one ends where or before the later one
starts).  Full coverage of `[0, lastTranscriptEnd]` does NOT hold in
general: the derivation ignores transcript end times and advances at
most one 30-second window per transcript segment, and a transcript's
text can be stored in a segment that does not contain the transcript's
start time (see the counterexample). -/
theorem claim_C1_timeSegments (ts : List TransSeg) :
    createTimeSegments ts = createTimeSegments ts ∧
    (∀ i (h : i < (createTimeSegments ts).length),
      ((createTimeSegments ts).get ⟨i, h⟩).start = 30 * i ∧
      ((createTimeSegments ts).get ⟨i, h⟩).stop = 30 * i + 30) ∧
    (∀ i j (hi : i < (createTimeSegments ts).length)
      (hj : j < (createTimeSegments ts).length), i < j →
      ((createTimeSegments ts).get ⟨i, hi⟩).stop ≤
        ((createTimeSegments ts).get ⟨j, hj⟩).start) := by
  refine ⟨rfl, createTimeSegments_get ts, ?_⟩
  intro i j hi hj hij
  obtain ⟨-, hstop⟩ := createTimeSegments_get ts i hi
  obtain ⟨hstart, -⟩ := createTimeSegments_get ts j hj
  rw [hstop, hstart]
  have hcast : (i : ℚ) + 1 ≤ (j : ℚ) := by exact_mod_cast hij
  linarith

/-- C1 (witness): the amended theorem applied to the concrete input
`[{start 0, "a"}, {start 40, "b"}]`, whose two derived segments are
`[0,30]` and `[30,60]`; the hypotheses `i < length` and `i < j` are
discharged at `i = 0`, `j = 1`. -/
theorem claim_C1_timeSegments_witness :
    ∃ (h0 : 0 < (createTimeSegments
        [⟨0, 5, "a"⟩, ⟨40, 45, "b"⟩]).length)
      (h1 : 1 < (createTimeSegments
        [⟨0, 5, "a"⟩, ⟨40, 45, "b"⟩]).length),
      ((createTimeSegments [⟨0, 5, "a"⟩, ⟨40, 45, "b"⟩]).get
          ⟨0, h0⟩).stop ≤
        ((createTimeSegments [⟨0, 5, "a"⟩, ⟨40, 45, "b"⟩]).get
          ⟨1, h1⟩).start := by
  have heq : createTimeSegments [⟨0, 5, "a"⟩, ⟨40, 45, "b"⟩] =
      [⟨0, 30, " a"⟩, ⟨30, 60, "b"⟩] := by
    norm_num [createTimeSegments, createTimeSegmentsStep]
    decide
  have h0 : 0 < (createTimeSegments
      [⟨0, 5, "a"⟩, ⟨40, 45, "b"⟩]).length := by rw [heq]; decide
  have h1 : 1 < (createTimeSegments
      [⟨0, 5, "a"⟩, ⟨40, 45, "b"⟩]).length := by rw [heq]; decide
  exact ⟨h0, h1,
    (claim_C1_timeSegments [⟨0, 5, "a"⟩, ⟨40, 45, "b"⟩]).2.2 0 1 h0 h1
      (by decide)⟩

/-- C6: for an open streaming session, pushing an audio chunk appends
it to the buffer; when the buffer thereby reaches 5 chunks the buffered
bytes are concatenated and transcribed, exactly one result with
timestamp `(number of prior results) × 5` is appended and the buffer is
cleared; with fewer than 5 chunks no inference runs, no result is
appended and a buffering status is returned. -/
theorem claim_C6_audioChunk
    (transcribe : List ℕ → Option TranscriptionResult)
    (analyze : String → Option SentimentResult)
    (reg : Registry) (session_id : String) (audio_chunk : List ℕ)
    (session : Session) (hopen : reg session_id = some session)
    (tr : TranscriptionResult) (st : SentimentResult)
    (htr : transcribe ((session.buffer ++ [audio_chunk]).flatten) = some tr)
    (hst : analyze tr.text = some st) :
    (5 ≤ session.buffer.length + 1 →
      processAudioChunk transcribe analyze reg session_id audio_chunk =
        (Except.ok (AudioResponse.result
          ⟨session.results.length * 5, tr, st, session_id⟩),
         registrySet reg session_id
           ⟨[], session.results ++
             [⟨session.results.length * 5, tr, st, session_id⟩]⟩)) ∧
    (session.buffer.length + 1 < 5 →
      processAudioChunk transcribe analyze reg session_id audio_chunk =
        (Except.ok AudioResponse.buffering,
         registrySet reg session_id
           { session with buffer := session.buffer ++ [audio_chunk] })) := by
  have hlen : (session.buffer ++ [audio_chunk]).length =
      session.buffer.length + 1 := by simp
  constructor
  · intro h5
    unfold processAudioChunk
    rw [hopen]
    have hcond : 5 ≤ (session.buffer ++ [audio_chunk]).length := by
      rw [hlen]; exact h5
    simp only [hcond, if_pos, htr, hst]
  · intro hlt
    unfold processAudioChunk
    rw [hopen]
    have hcond : ¬ 5 ≤ (session.buffer ++ [audio_chunk]).length := by
      rw [hlen]; omega
    simp only [hcond, if_neg, not_false_iff]

/-- C6 (witness): a session `"s"` with four buffered chunks receives a
fifth chunk; the oracles succeed, one result with timestamp `0 × 5 = 0`
is appended, and the buffer is cleared. -/
theorem claim_C6_audioChunk_witness :
    processAudioChunk (fun _ => some ⟨"hello"⟩) (fun _ => some ⟨"positive"⟩)
      (fun x => if x = "s" then some ⟨[[0], [1], [2], [3]], []⟩ else none)
      "s" [4] =
    (Except.ok (AudioResponse.result ⟨0, ⟨"hello"⟩, ⟨"positive"⟩, "s"⟩),
     registrySet
       (fun x => if x = "s" then some ⟨[[0], [1], [2], [3]], []⟩ else none)
       "s" ⟨[], [⟨0, ⟨"hello"⟩, ⟨"positive"⟩, "s"⟩]⟩) := by
  exact (claim_C6_audioChunk (fun _ => some ⟨"hello"⟩)
    (fun _ => some ⟨"positive"⟩)
    (fun x => if x = "s" then some ⟨[[0], [1], [2], [3]], []⟩ else none)
    "s" [4] ⟨[[0], [1], [2], [3]], []⟩ (by simp) ⟨"hello"⟩ ⟨"positive"⟩
    rfl rfl).1 (by decide)

/-- C7 (counterexample): session `"t"` holds four chunks; the fifth
chunk arrives and the transcription capability fails.  The cycle aborts
with the inference error and no result is appended, but the buffer is
NOT cleared: it still holds all five chunks, so the bad data will be
reprocessed on the next cycle (the claim asserts the buffer is
cleared). -/
theorem claim_C7_counterexample :
    (processAudioChunk (fun _ => none) (fun _ => some ⟨"positive"⟩)
      (fun x => if x = "t" then some ⟨[[10], [11], [12], [13]], []⟩
                else none) "t" [14]).1 =
      Except.error StreamError.inferenceFailure ∧
    (processAudioChunk (fun _ => none) (fun _ => some ⟨"positive"⟩)
      (fun x => if x = "t" then some ⟨[[10], [11], [12], [13]], []⟩
                else none) "t" [14]).2 "t" =
      some ⟨[[10], [11], [12], [13], [14]], []⟩ ∧
    ([[10], [11], [12], [13], [14]] : List (List ℕ)) ≠ [] := by
  refine ⟨rfl, rfl, by decide⟩

/-- C7 (amended): if a capability call fails during a full-buffer audio
cycle, the exception propagates out of `process_audio_chunk`: the cycle
is aborted, no result is appended, and the session survives in the
registry — but the buffer is NOT cleared: it retains the appended chunk
together with the four previous ones, so the bad data is reprocessed on
the next cycle. -/
theorem claim_C7_inferenceFailure
    (transcribe : List ℕ → Option TranscriptionResult)
    (analyze : String → Option SentimentResult)
    (reg : Registry) (session_id : String) (audio_chunk : List ℕ)
    (session : Session) (hopen : reg session_id = some session)
    (hfull : 5 ≤ session.buffer.length + 1)
    (hfail : transcribe ((session.buffer ++ [audio_chunk]).flatten) = none ∨
      ∃ tr, transcribe ((session.buffer ++ [audio_chunk]).flatten) = some tr ∧
        analyze tr.text = none) :
    processAudioChunk transcribe analyze reg session_id audio_chunk =
      (Except.error StreamError.inferenceFailure,
       registrySet reg session_id
         { session with buffer := session.buffer ++ [audio_chunk] }) ∧
    registrySet reg session_id
        { session with buffer := session.buffer ++ [audio_chunk] }
        session_id =
      some { session with buffer := session.buffer ++ [audio_chunk] } ∧
    session.buffer ++ [audio_chunk] ≠ [] := by
  have hlen : (session.buffer ++ [audio_chunk]).length =
      session.buffer.length + 1 := by simp
  refine ⟨?_, ?_, by simp⟩
  · unfold processAudioChunk
    rw [hopen]
    have hcond : 5 ≤ (session.buffer ++ [audio_chunk]).length := by
      rw [hlen]; exact hfull
    rcases hfail with hnone | ⟨tr, htr, hsent⟩
    · simp only [hcond, if_pos, hnone]
    · simp only [hcond, if_pos, htr, hsent]
  · unfold registrySet
    simp

/-- C7 (witness): the amended theorem at a concrete session with four
buffered chunks and a failing transcription oracle. -/
theorem claim_C7_inferenceFailure_witness :
    processAudioChunk (fun _ => none) (fun _ => some ⟨"neutral"⟩)
      (fun x => if x = "u" then some ⟨[[1], [2], [3], [4]], []⟩ else none)
      "u" [5] =
    (Except.error StreamError.inferenceFailure,
     registrySet
       (fun x => if x = "u" then some ⟨[[1], [2], [3], [4]], []⟩ else none)
       "u" ⟨[[1], [2], [3], [4], [5]], []⟩) := by
  exact (claim_C7_inferenceFailure (fun _ => none)
    (fun _ => some ⟨"neutral"⟩)
    (fun x => if x = "u" then some ⟨[[1], [2], [3], [4]], []⟩ else none)
    "u" [5] ⟨[[1], [2], [3], [4]], []⟩ (by simp) (by decide)
    (Or.inl rfl)).1

/-- C8: code-level evaluation of `process_video_frame`.  The source
gates detection on `len(results) % 10 == 0` where `results` is the
session's AUDIO result history, never a frame counter, and never
mutates the session.  Hence for a session with no audio results two
consecutive incoming frames are BOTH handed to object detection
(the second is not a 10th frame), while a session with three audio
results has EVERY frame skipped. -/
theorem claim_C8_code_evaluation :
    (processVideoFrame (fun _ => [])
        (fun x => if x = "v" then some ⟨[], []⟩ else none) "v" [1]).1 =
      Except.ok (FrameResponse.detection 0 [] (((0 : ℕ) : ℚ) / 30) "v") ∧
    (processVideoFrame (fun _ => [])
        ((processVideoFrame (fun _ => [])
          (fun x => if x = "v" then some ⟨[], []⟩ else none) "v" [1]).2)
        "v" [2]).1 =
      Except.ok (FrameResponse.detection 0 [] (((0 : ℕ) : ℚ) / 30) "v") ∧
    (processVideoFrame (fun _ => [])
        (fun x => if x = "v" then
            some ⟨[], [⟨0, ⟨""⟩, ⟨""⟩, "v"⟩, ⟨5, ⟨""⟩, ⟨""⟩, "v"⟩,
                       ⟨10, ⟨""⟩, ⟨""⟩, "v"⟩]⟩
          else none) "v" [3]).1 =
      Except.ok FrameResponse.skippedFrame := by
  refine ⟨rfl, rfl, rfl⟩

/-- C9: ending an open session returns the final insights computed from
the still-registered session state (a successful response), removes the
session from the registry, and afterwards every operation on that id —
push audio chunk, push video frame, get live insights, end session —
fails with the session-not-found error (the source's
`ValueError(f"Session ... not found")`, the spec's `NotFoundError`). -/
theorem claim_C9_endSession (reg : Registry) (session_id : String)
    (session : Session) (hopen : reg session_id = some session)
    (transcribe : List ℕ → Option TranscriptionResult)
    (analyze : String → Option SentimentResult)
    (detect : List ℕ → List DetectedObject)
    (audio_chunk frame_data : List ℕ) :
    (endStreamingSession reg session_id).1 =
      getLiveInsights reg session_id ∧
    (∃ i, (endStreamingSession reg session_id).1 = Except.ok i) ∧
    (endStreamingSession reg session_id).2 session_id = none ∧
    processAudioChunk transcribe analyze
        (endStreamingSession reg session_id).2 session_id audio_chunk =
      (Except.error (StreamError.sessionNotFound session_id),
       (endStreamingSession reg session_id).2) ∧
    processVideoFrame detect
        (endStreamingSession reg session_id).2 session_id frame_data =
      (Except.error (StreamError.sessionNotFound session_id),
       (endStreamingSession reg session_id).2) ∧
    getLiveInsights (endStreamingSession reg session_id).2 session_id =
      Except.error (StreamError.sessionNotFound session_id) ∧
    endStreamingSession (endStreamingSession reg session_id).2 session_id =
      (Except.error (StreamError.sessionNotFound session_id),
       (endStreamingSession reg session_id).2) := by
  have h1 : endStreamingSession reg session_id =
      (getLiveInsights reg session_id, registryDel reg session_id) := by
    unfold endStreamingSession
    rw [hopen]
  have hdn : registryDel reg session_id session_id = none := by
    unfold registryDel
    simp
  refine ⟨by rw [h1], ?_, ?_, ?_, ?_, ?_, ?_⟩
  · rw [h1]
    dsimp only
    unfold getLiveInsights
    rw [hopen]
    dsimp only
    by_cases hres : session.results.length = 0
    · rw [if_pos hres]
      exact ⟨_, rfl⟩
    · rw [if_neg hres]
      exact ⟨_, rfl⟩
  · rw [h1]
    exact hdn
  · rw [h1]
    dsimp only
    unfold processAudioChunk
    rw [hdn]
  · rw [h1]
    dsimp only
    unfold processVideoFrame
    rw [hdn]
  · rw [h1]
    dsimp only
    unfold getLiveInsights
    rw [hdn]
  · rw [h1]
    dsimp only
    unfold endStreamingSession
    rw [hdn]

/-- C9 (witness): ending a concrete one-result session `"w"`; the
open-session hypothesis is discharged by evaluation. -/
theorem claim_C9_endSession_witness :
    ((endStreamingSession
        (fun x => if x = "w" then
          some ⟨[], [⟨0, ⟨"hi"⟩, ⟨"positive"⟩, "w"⟩]⟩ else none) "w").2 "w"
      = none) ∧
    getLiveInsights
        (endStreamingSession
          (fun x => if x = "w" then
            some ⟨[], [⟨0, ⟨"hi"⟩, ⟨"positive"⟩, "w"⟩]⟩ else none) "w").2
        "w" =
      Except.error (StreamError.sessionNotFound "w") := by
  have h := claim_C9_endSession
    (fun x => if x = "w" then
      some ⟨[], [⟨0, ⟨"hi"⟩, ⟨"positive"⟩, "w"⟩]⟩ else none) "w"
    ⟨[], [⟨0, ⟨"hi"⟩, ⟨"positive"⟩, "w"⟩]⟩ (by simp)
    (fun _ => none) (fun _ => none) (fun _ => []) [] []
  exact ⟨h.2.2.1, h.2.2.2.2.2.1⟩

/-- C2: code-level evaluation of the status query.  `process_media_file`
never inserts a `ProcessingResult` row on any path (first conjunct), yet
`get_processing_status` compiles its stage map exclusively from the
`ProcessingResult` table; hence even for a fully completed job — whose
`Transcription`, `Summary` and `SentimentAnalysis` rows exist — the
status response carries status `"completed"` with `results = None`,
missing every completed stage. -/
theorem claim_C2_statusResults :
    (∀ (db : Db) (file_type : String) (o : PipelineOracles),
      (processMediaFile db file_type o).processing_results =
        db.processing_results) ∧
    getProcessingStatus (processMediaFile
        ⟨"uploaded", [], [], [], [], []⟩ "audio"
        ⟨true, some ⟨"all good", "en", 9 / 10⟩,
         fun _ => some ⟨"a summary", "abstractive"⟩,
         fun _ => some ⟨"positive", []⟩, some [], true⟩) =
      ⟨"completed", none⟩ ∧
    (processMediaFile ⟨"uploaded", [], [], [], [], []⟩ "audio"
        ⟨true, some ⟨"all good", "en", 9 / 10⟩,
         fun _ => some ⟨"a summary", "abstractive"⟩,
         fun _ => some ⟨"positive", []⟩, some [], true⟩).transcriptions =
      [⟨"all good", "en", 9 / 10⟩] := by
  refine ⟨?_, rfl, rfl⟩
  intro db file_type o
  unfold processMediaFile
  dsimp only
  split
  · rfl
  · split
    · rfl
    · split
      · rfl
      · split
        · rfl
        · split
          · rfl
          · rfl

lemma reelLoop_bound (video_duration max_duration : ℚ)
    (l : List Highlight) :
    ∀ st : ReelState, st.total_duration ≤ max_duration →
      (st.trimmed = true → st.total_duration = max_duration) →
      (reelLoop video_duration max_duration l st).total_duration ≤
          max_duration ∧
        ((reelLoop video_duration max_duration l st).trimmed = true →
          (reelLoop video_duration max_duration l st).total_duration =
            max_duration) := by
  induction l with
  | nil =>
    intro st h1 h2
    simp only [reelLoop]
    exact ⟨h1, h2⟩
  | cons h rest ih =>
    intro st h1 h2
    simp only [reelLoop]
    by_cases hbr : st.total_duration ≥ max_duration
    · rw [if_pos hbr]
      exact ⟨h1, h2⟩
    · rw [if_neg hbr]
      by_cases hover : st.total_duration +
          (min video_duration (h.end_time + 2) - max 0 (h.start_time - 2)) >
          max_duration
      · rw [if_pos hover]
        apply ih
        · have heq : st.total_duration +
              (max_duration - st.total_duration) = max_duration := by ring
          exact le_of_eq heq
        · intro _
          ring
      · rw [if_neg hover]
        apply ih
        · exact not_lt.mp hover
        · intro htr
          have := h2 htr
          exfalso
          exact hbr (le_of_eq this.symm)

/-- C4 (counterexample): with media duration 200, max duration 120 and a
single candidate `[2, 118]` (score 0.9), the padded clip is exactly
`[0, 120]` of duration 120; it is accepted untrimmed and the total
equals the max although no candidate was trimmed — refuting "the total
equals the max only when at least one accepted candidate was
trimmed". -/
theorem claim_C4_counterexample :
    (createSmartHighlightReel 200
      [⟨2, 118, 9 / 10, [], "", "general_interest"⟩] 120).total_duration =
        120 ∧
    (createSmartHighlightReel 200
      [⟨2, 118, 9 / 10, [], "", "general_interest"⟩] 120).trimmed =
        false := by
  norm_num [createSmartHighlightReel, reelLoop, List.insertionSort,
    List.orderedInsert, min_def, max_def]

/-- C4 (amended): for a non-negative configured max duration, the
assembled reel's total accepted-clip duration never exceeds the max,
and whenever the trim-to-fit branch has executed the total equals the
max exactly.  The converse of the spec's equality condition fails:
padded clips can exactly fill the budget without any trim (see the
counterexample). -/
theorem claim_C4_reelDurationBound (video_duration max_duration : ℚ)
    (highlights : List Highlight) (hmax : 0 ≤ max_duration) :
    (createSmartHighlightReel video_duration highlights
        max_duration).total_duration ≤ max_duration ∧
      ((createSmartHighlightReel video_duration highlights
          max_duration).trimmed = true →
        (createSmartHighlightReel video_duration highlights
          max_duration).total_duration = max_duration) := by
  unfold createSmartHighlightReel
  exact reelLoop_bound video_duration max_duration
    (highlights.insertionSort reelKeyGE) ⟨[], 0, false⟩ hmax (by simp)

/-- C4 (witness): the duration bound at media duration 100, two
candidates and the default max 120; the hypothesis `0 ≤ 120` is
discharged numerically. -/
theorem claim_C4_reelDurationBound_witness :
    (createSmartHighlightReel 100
        [⟨0, 50, 1 / 2, [], "", "general_interest"⟩,
         ⟨60, 90, 3 / 4, [], "", "general_interest"⟩]
        120).total_duration ≤ 120 ∧
      ((createSmartHighlightReel 100
          [⟨0, 50, 1 / 2, [], "", "general_interest"⟩,
           ⟨60, 90, 3 / 4, [], "", "general_interest"⟩]
          120).trimmed = true →
        (createSmartHighlightReel 100
          [⟨0, 50, 1 / 2, [], "", "general_interest"⟩,
           ⟨60, 90, 3 / 4, [], "", "general_interest"⟩]
          120).total_duration = 120) :=
  claim_C4_reelDurationBound 100 120
    [⟨0, 50, 1 / 2, [], "", "general_interest"⟩,
     ⟨60, 90, 3 / 4, [], "", "general_interest"⟩] (by norm_num)

lemma mem_enumFrom_fst_le {α : Type} (l : List α) :
    ∀ (n : ℕ) (p : ℕ × α), p ∈ l.enumFrom n → n ≤ p.1 := by
  induction l with
  | nil => intro n p hp; simp [List.enumFrom] at hp
  | cons x rest ih =>
    intro n p hp
    simp only [List.enumFrom, List.mem_cons] at hp
    rcases hp with hp | hp
    · subst hp; exact le_refl n
    · exact le_trans (Nat.le_succ n) (ih (n + 1) p hp)

lemma pairwise_fst_lt_enumFrom {α : Type} (l : List α) :
    ∀ n : ℕ, (l.enumFrom n).Pairwise fun a b => a.1 < b.1 := by
  induction l with
  | nil => intro n; simp [List.enumFrom]
  | cons x rest ih =>
    intro n
    simp only [List.enumFrom]
    refine List.Pairwise.cons ?_ (ih (n + 1))
    intro p hp
    exact Nat.lt_of_lt_of_le (Nat.lt_succ_self n)
      (mem_enumFrom_fst_le rest (n + 1) p hp)

/-- The sentiment results of `analyze_sentiment` carry strictly
increasing `segment_index` values (whitespace-only chunks are skipped,
so indices are a strictly increasing subsequence of `0, 1, 2, ...`). -/
lemma analyzeSentimentSegments_pairwise (text : List Char)
    (classify : List Char → String × ℚ) :
    (analyzeSentimentSegments text classify).Pairwise
      fun a b => a.segment_index < b.segment_index := by
  unfold analyzeSentimentSegments
  apply List.Pairwise.filterMap
  case p =>
    exact pairwise_fst_lt_enumFrom (chunksOf512 text) 0
  case H =>
    intro a b hab x hx y hy
    simp only [Option.mem_def] at hx hy
    split at hx
    · split at hy
      · injection hx with hx
        injection hy with hy
        subst hx
        subst hy
        exact hab
      · simp at hy
    · simp at hx

lemma analyzeSentimentSegments_tail_index (text : List Char)
    (classify : List Char → String × ℚ) :
    ∀ x ∈ (analyzeSentimentSegments text classify).tail,
      1 ≤ x.segment_index := by
  have hp := analyzeSentimentSegments_pairwise text classify
  cases hl : analyzeSentimentSegments text classify with
  | nil => simp
  | cons a rest =>
    rw [hl] at hp
    intro x hx
    simp only [List.tail_cons] at hx
    have := (List.pairwise_cons.mp hp).1 x hx
    omega

lemma detectSentimentChanges_timestamp (segments : List SentimentSegment)
    (hseg : ∀ x ∈ segments.tail, 1 ≤ x.segment_index) :
    ∀ c ∈ detectSentimentChanges segments,
      ∃ k : ℕ, 1 ≤ k ∧ c.timestamp = (k : ℚ) * 512 := by
  intro c hc
  unfold detectSentimentChanges at hc
  simp only [List.mem_filterMap] at hc
  obtain ⟨p, hp, hpc⟩ := hc
  have hp2 : p.2 ∈ segments.tail :=
    (List.of_mem_zip (show (p.1, p.2) ∈ segments.zip segments.tail from hp)).2
  split at hpc
  · injection hpc with hpc
    refine ⟨p.2.segment_index, hseg p.2 hp2, ?_⟩
    rw [← hpc]
  · simp at hpc

lemma foldl_score_zero (changes : List SentimentChange) (seg : TimeSeg)
    (h : ∀ c ∈ changes,
      ¬ (seg.start ≤ c.timestamp ∧ c.timestamp ≤ seg.stop)) :
    getSentimentChangeScore changes seg = 0 := by
  unfold getSentimentChangeScore
  induction changes with
  | nil => rfl
  | cons c rest ih =>
    rw [List.foldl_cons, if_neg (h c (List.mem_cons_self c rest))]
    exact ih fun x hx => h x (List.mem_cons_of_mem c hx)

/-- C10: every SentimentChange derived from `analyze_sentiment` output
carries `timestamp = segment_index × 512` with `segment_index ≥ 1`, so
every sentiment-change timestamp is at least 512; consequently every
TimeSegment ending before 512 has sentiment-change score 0 and a zero
sentiment contribution (`score × 0.25`) to the fused score. -/
theorem claim_C10_sentimentTimestamps (text : List Char)
    (classify : List Char → String × ℚ) :
    (∀ c ∈ detectSentimentChanges (analyzeSentimentSegments text classify),
      (∃ k : ℕ, 1 ≤ k ∧ c.timestamp = (k : ℚ) * 512) ∧
        512 ≤ c.timestamp) ∧
    ∀ seg : TimeSeg, seg.stop < 512 →
      getSentimentChangeScore
          (detectSentimentChanges (analyzeSentimentSegments text classify))
          seg = 0 ∧
        getSentimentChangeScore
          (detectSentimentChanges (analyzeSentimentSegments text classify))
          seg * (1 / 4) = 0 := by
  have hts := detectSentimentChanges_timestamp
    (analyzeSentimentSegments text classify)
    (analyzeSentimentSegments_tail_index text classify)
  have h512 : ∀ c ∈ detectSentimentChanges
      (analyzeSentimentSegments text classify), 512 ≤ c.timestamp := by
    intro c hc
    obtain ⟨k, hk1, hkts⟩ := hts c hc
    rw [hkts]
    have hk : (1 : ℚ) ≤ (k : ℚ) := by exact_mod_cast hk1
    nlinarith
  constructor
  · intro c hc
    exact ⟨hts c hc, h512 c hc⟩
  · intro seg hseg
    have hzero : getSentimentChangeScore
        (detectSentimentChanges (analyzeSentimentSegments text classify))
        seg = 0 := by
      apply foldl_score_zero
      intro c hc hcontra
      have := h512 c hc
      linarith [hcontra.2]
    exact ⟨hzero, by rw [hzero]; ring⟩

/-- C10 (witness): the theorem at the concrete text `"ab"` (a single
chunk, hence no changes) and the segment `[0, 30]`, whose end is below
512. -/
theorem claim_C10_sentimentTimestamps_witness :
    getSentimentChangeScore
        (detectSentimentChanges (analyzeSentimentSegments
          [Char.ofNat 97, Char.ofNat 98] fun _ => ("positive", 1)))
        ⟨0, 30, ""⟩ = 0 :=
  ((claim_C10_sentimentTimestamps
    [Char.ofNat 97, Char.ofNat 98] (fun _ => ("positive", 1))).2
    ⟨0, 30, ""⟩ (by norm_num)).1

/-- C5: a segment is emitted as a HighlightCandidate exactly when its
fused score is strictly above `0.5`; a reason of each kind is recorded
exactly when that signal's score exceeds its reporting threshold
(emotion `0.7`, sentiment `0.6`, topic `0.6`, visual `0.7`); and the
returned list is sorted by fused score descending, contains
`min 10 |candidates|` elements, and draws all its elements from the
candidates. -/
theorem claim_C5_detection (ts : List TransSeg)
    (emotion_peaks : List EmotionPeak)
    (sentiment_changes : List SentimentChange)
    (topic_transitions : List TopicTransition)
    (visual_spikes : List VisualSpike) :
    (∀ h : Highlight,
      h ∈ highlightCandidates ts emotion_peaks sentiment_changes
          topic_transitions visual_spikes ↔
        ∃ seg ∈ createTimeSegments ts,
          fusedScore emotion_peaks sentiment_changes topic_transitions
              visual_spikes seg > 1 / 2 ∧
            h = mkHighlight emotion_peaks sentiment_changes
              topic_transitions visual_spikes seg) ∧
    (∀ seg : TimeSeg,
      ((∃ q, Reason.highEmotionalContent q ∈ segmentReasons emotion_peaks
          sentiment_changes topic_transitions visual_spikes seg) ↔
        7 / 10 < getEmotionScoreForSegment emotion_peaks seg) ∧
      ((∃ q, Reason.sentimentTransition q ∈ segmentReasons emotion_peaks
          sentiment_changes topic_transitions visual_spikes seg) ↔
        3 / 5 < getSentimentChangeScore sentiment_changes seg) ∧
      ((∃ q, Reason.topicChange q ∈ segmentReasons emotion_peaks
          sentiment_changes topic_transitions visual_spikes seg) ↔
        3 / 5 < getTopicTransitionScore topic_transitions seg) ∧
      ((∃ q, Reason.highVisualActivity q ∈ segmentReasons emotion_peaks
          sentiment_changes topic_transitions visual_spikes seg) ↔
        7 / 10 < getVisualActivityScore visual_spikes seg)) ∧
    (detectHighlightMoments ts emotion_peaks sentiment_changes
        topic_transitions visual_spikes).Sorted scoreGE ∧
    (detectHighlightMoments ts emotion_peaks sentiment_changes
        topic_transitions visual_spikes).length =
      min 10 (highlightCandidates ts emotion_peaks sentiment_changes
        topic_transitions visual_spikes).length ∧
    ∀ h ∈ detectHighlightMoments ts emotion_peaks sentiment_changes
        topic_transitions visual_spikes,
      h ∈ highlightCandidates ts emotion_peaks sentiment_changes
        topic_transitions visual_spikes := by
  refine ⟨?_, ?_, ?_, ?_, ?_⟩
  · intro h
    unfold highlightCandidates
    rw [List.mem_filterMap]
    constructor
    · rintro ⟨seg, hseg, hf⟩
      split at hf
      · injection hf with hf
        exact ⟨seg, hseg, by assumption, hf.symm⟩
      · simp at hf
    · rintro ⟨seg, hseg, hgt, rfl⟩
      exact ⟨seg, hseg, by rw [if_pos hgt]⟩
  · intro seg
    by_cases h1 : getEmotionScoreForSegment emotion_peaks seg > 7 / 10 <;>
    by_cases h2 : getSentimentChangeScore sentiment_changes seg > 3 / 5 <;>
    by_cases h3 : getTopicTransitionScore topic_transitions seg > 3 / 5 <;>
    by_cases h4 : getVisualActivityScore visual_spikes seg > 7 / 10 <;>
      simp [segmentReasons, h1, h2, h3, h4]
  · apply List.Pairwise.sublist (List.take_sublist 10 _)
    exact List.sorted_insertionSort scoreGE _
  · unfold detectHighlightMoments
    rw [List.length_take, List.length_insertionSort]
  · intro h hmem
    unfold detectHighlightMoments at hmem
    have hs := List.take_subset 10 _ hmem
    rwa [List.mem_insertionSort] at hs

/-- C5 (witness): the characterization applied at one transcript
segment, an emotion peak of confidence 1 and a topic transition of
intensity 0.9: the derived segment `[0, 30]` has fused score
`21/40 > 1/2`, so its candidate is emitted, and the emotion reason is
recorded since `1 > 0.7`. -/
theorem claim_C5_detection_witness :
    mkHighlight [⟨0, 10, "happy", 1⟩] [] [⟨5, 1 / 10, 9 / 10⟩] []
        ⟨0, 30, " hello"⟩ ∈
      highlightCandidates [⟨0, 5, "hello"⟩] [⟨0, 10, "happy", 1⟩] []
        [⟨5, 1 / 10, 9 / 10⟩] [] ∧
    ∃ q, Reason.highEmotionalContent q ∈
      segmentReasons [⟨0, 10, "happy", 1⟩] [] [⟨5, 1 / 10, 9 / 10⟩] []
        ⟨0, 30, " hello"⟩ := by
  have hseg : createTimeSegments [⟨0, 5, "hello"⟩] = [⟨0, 30, " hello"⟩] := by
    decide
  constructor
  · refine ((claim_C5_detection [⟨0, 5, "hello"⟩] [⟨0, 10, "happy", 1⟩] []
      [⟨5, 1 / 10, 9 / 10⟩] []).1 _).mpr ⟨⟨0, 30, " hello"⟩, ?_, ?_, rfl⟩
    · rw [hseg]; exact List.mem_singleton_self _
    · norm_num [fusedScore, getEmotionScoreForSegment,
        getSentimentChangeScore, getTopicTransitionScore,
        getVisualActivityScore, max_def]
  · exact ((claim_C5_detection [⟨0, 5, "hello"⟩] [⟨0, 10, "happy", 1⟩] []
      [⟨5, 1 / 10, 9 / 10⟩] []).2.1 ⟨0, 30, " hello"⟩).1.mpr
      (by norm_num [getEmotionScoreForSegment, max_def])

lemma foldl_bound_of_step {α : Type} (f : ℚ → α → ℚ) (B : ℚ) :
    ∀ l : List α,
      (∀ acc x, x ∈ l → 0 ≤ acc → acc ≤ B → 0 ≤ f acc x ∧ f acc x ≤ B) →
      ∀ init, 0 ≤ init → init ≤ B →
        0 ≤ l.foldl f init ∧ l.foldl f init ≤ B := by
  intro l
  induction l with
  | nil => intro _ init h0 hB; exact ⟨h0, hB⟩
  | cons x rest ih =>
    intro hstep init h0 hB
    rw [List.foldl_cons]
    have hx := hstep init x (List.mem_cons_self x rest) h0 hB
    exact ih (fun acc y hy => hstep acc y (List.mem_cons_of_mem x hy))
      (f init x) hx.1 hx.2

lemma getEmotionScoreForSegment_bounds (peaks : List EmotionPeak)
    (seg : TimeSeg) (hp : ∀ p ∈ peaks, 0 ≤ p.confidence ∧ p.confidence ≤ 1) :
    0 ≤ getEmotionScoreForSegment peaks seg ∧
      getEmotionScoreForSegment peaks seg ≤ 1 := by
  unfold getEmotionScoreForSegment
  refine foldl_bound_of_step _ 1 peaks ?_ 0 (le_refl 0) (by norm_num)
  intro acc p hpm h0 hB
  by_cases hc : p.start ≤ seg.stop ∧ p.stop ≥ seg.start
  · rw [if_pos hc]
    exact ⟨le_trans h0 (le_max_left _ _), max_le hB (hp p hpm).2⟩
  · rw [if_neg hc]
    exact ⟨h0, hB⟩

lemma getSentimentChangeScore_bounds (changes : List SentimentChange)
    (seg : TimeSeg)
    (hc : ∀ c ∈ changes, 0 ≤ c.intensity ∧ c.intensity ≤ 1) :
    0 ≤ getSentimentChangeScore changes seg ∧
      getSentimentChangeScore changes seg ≤ 1 := by
  unfold getSentimentChangeScore
  refine foldl_bound_of_step _ 1 changes ?_ 0 (le_refl 0) (by norm_num)
  intro acc c hcm h0 hB
  by_cases hcond : seg.start ≤ c.timestamp ∧ c.timestamp ≤ seg.stop
  · rw [if_pos hcond]
    exact ⟨le_trans h0 (le_max_left _ _), max_le hB (hc c hcm).2⟩
  · rw [if_neg hcond]
    exact ⟨h0, hB⟩

lemma getTopicTransitionScore_bounds (transitions : List TopicTransition)
    (seg : TimeSeg)
    (ht : ∀ t ∈ transitions, 0 ≤ t.intensity ∧ t.intensity ≤ 2) :
    0 ≤ getTopicTransitionScore transitions seg ∧
      getTopicTransitionScore transitions seg ≤ 2 := by
  unfold getTopicTransitionScore
  refine foldl_bound_of_step _ 2 transitions ?_ 0 (le_refl 0) (by norm_num)
  intro acc t htm h0 hB
  by_cases hcond : seg.start ≤ t.timestamp ∧ t.timestamp ≤ seg.stop
  · rw [if_pos hcond]
    exact ⟨le_trans h0 (le_max_left _ _), max_le hB (ht t htm).2⟩
  · rw [if_neg hcond]
    exact ⟨h0, hB⟩

lemma getVisualActivityScore_bounds (spikes : List VisualSpike)
    (seg : TimeSeg)
    (hs : ∀ v ∈ spikes, 0 ≤ v.activity_level ∧ v.activity_level ≤ 1) :
    0 ≤ getVisualActivityScore spikes seg ∧
      getVisualActivityScore spikes seg ≤ 1 := by
  unfold getVisualActivityScore
  refine foldl_bound_of_step _ 1 spikes ?_ 0 (le_refl 0) (by norm_num)
  intro acc v hvm h0 hB
  by_cases hcond : seg.start ≤ v.timestamp ∧ v.timestamp ≤ seg.stop
  · rw [if_pos hcond]
    exact ⟨le_trans h0 (le_max_left _ _), max_le hB (hs v hvm).2⟩
  · rw [if_neg hcond]
    exact ⟨h0, hB⟩

/-- Topic-transition intensities are `1 - similarity` for a recorded
similarity below `0.3`; with a genuine cosine similarity in `[-1, 1]`
they lie in `[0, 2]` — and exceed 1 whenever the similarity is
negative. -/
lemma detectTopicTransitions_intensity (tsegs : List TransSeg)
    (sim : ℕ → ℚ) (hsim : ∀ i, |sim i| ≤ 1) :
    ∀ t ∈ detectTopicTransitions tsegs sim,
      0 ≤ t.intensity ∧ t.intensity ≤ 2 := by
  intro t ht
  unfold detectTopicTransitions at ht
  split at ht
  · simp at ht
  · simp only [List.mem_filterMap] at ht
    obtain ⟨p, hp, hpt⟩ := ht
    split at hpt
    · injection hpt with hpt
      subst hpt
      have habs := hsim (p.1 + 1)
      rw [abs_le] at habs
      constructor
      · simp only
        linarith [habs.2]
      · simp only
        linarith [habs.1]
    · simp at hpt

lemma analyzeSentimentSegments_conf (text : List Char)
    (classify : List Char → String × ℚ)
    (hcls : ∀ chunk, 0 ≤ (classify chunk).2 ∧ (classify chunk).2 ≤ 1) :
    ∀ s ∈ analyzeSentimentSegments text classify,
      0 ≤ s.confidence_score ∧ s.confidence_score ≤ 1 := by
  intro s hs
  unfold analyzeSentimentSegments at hs
  simp only [List.mem_filterMap] at hs
  obtain ⟨p, hp, hps⟩ := hs
  split at hps
  · injection hps with hps
    subst hps
    exact hcls p.2
  · simp at hps

lemma detectSentimentChanges_intensity (segments : List SentimentSegment)
    (hconf : ∀ s ∈ segments,
      0 ≤ s.confidence_score ∧ s.confidence_score ≤ 1) :
    ∀ c ∈ detectSentimentChanges segments,
      0 ≤ c.intensity ∧ c.intensity ≤ 1 := by
  intro c hc
  unfold detectSentimentChanges at hc
  simp only [List.mem_filterMap] at hc
  obtain ⟨p, hp, hpc⟩ := hc
  have hz := List.of_mem_zip (show (p.1, p.2) ∈ _ from hp)
  have h1 := hconf p.1 hz.1
  have h2 := hconf p.2 (List.mem_of_mem_tail hz.2)
  split at hpc
  · injection hpc with hpc
    subst hpc
    refine ⟨abs_nonneg _, ?_⟩
    simp only
    rw [abs_sub_le_iff]
    constructor <;> linarith [h1.1, h1.2, h2.1, h2.2]
  · simp at hpc

/-- C3 (counterexample): with two transcript segments whose embedding
cosine similarity is `-1` (a legitimate cosine value: `|-1| ≤ 1`,
attained by opposite embedding vectors), `_detect_topic_transitions`
records a transition of intensity `1 - (-1) = 2`.  Together with an
emotion peak of confidence `0.8` the derived segment `[0, 30]` has
fused score `0.8·0.3 + 2·0.25 = 0.74 > 0.5`, so detection emits exactly
this candidate — whose contributing topic-transition per-signal score is
`2`, outside `[0, 1]`. -/
theorem claim_C3_counterexample :
    |(-1 : ℚ)| ≤ 1 ∧
    detectTopicTransitions [⟨0, 5, "a"⟩, ⟨6, 9, "b"⟩] (fun _ => -1) =
      [⟨6, -1, 2⟩] ∧
    detectHighlightMoments [⟨0, 5, "a"⟩, ⟨6, 9, "b"⟩]
        [⟨0, 10, "happy", 4 / 5⟩] []
        (detectTopicTransitions [⟨0, 5, "a"⟩, ⟨6, 9, "b"⟩] (fun _ => -1))
        [] =
      [mkHighlight [⟨0, 10, "happy", 4 / 5⟩] [] [⟨6, -1, 2⟩] []
        ⟨0, 30, " a b"⟩] ∧
    getTopicTransitionScore [⟨6, -1, 2⟩] ⟨0, 30, " a b"⟩ = 2 ∧
    ¬ ((2 : ℚ) ≤ 1) := by
  have htrans : detectTopicTransitions [⟨0, 5, "a"⟩, ⟨6, 9, "b"⟩]
      (fun _ => -1) = [⟨6, -1, 2⟩] := by
    unfold detectTopicTransitions
    norm_num [List.enum, List.enumFrom, List.filterMap]
  have hseg : createTimeSegments [⟨0, 5, "a"⟩, ⟨6, 9, "b"⟩] =
      [⟨0, 30, " a b"⟩] := by
    decide
  have htop : getTopicTransitionScore [⟨6, -1, 2⟩] ⟨0, 30, " a b"⟩ = 2 := by
    norm_num [getTopicTransitionScore, max_def]
  have hemo : getEmotionScoreForSegment [⟨0, 10, "happy", 4 / 5⟩]
      ⟨0, 30, " a b"⟩ = 4 / 5 := by
    norm_num [getEmotionScoreForSegment, max_def]
  have hfused : fusedScore [⟨0, 10, "happy", 4 / 5⟩] [] [⟨6, -1, 2⟩] []
      ⟨0, 30, " a b"⟩ = 37 / 50 := by
    unfold fusedScore
    rw [hemo, htop]
    norm_num [getSentimentChangeScore, getVisualActivityScore]
  have hcand : highlightCandidates [⟨0, 5, "a"⟩, ⟨6, 9, "b"⟩]
      [⟨0, 10, "happy", 4 / 5⟩] [] [⟨6, -1, 2⟩] [] =
      [mkHighlight [⟨0, 10, "happy", 4 / 5⟩] [] [⟨6, -1, 2⟩] []
        ⟨0, 30, " a b"⟩] := by
    unfold highlightCandidates
    rw [hseg]
    have hgt : fusedScore [⟨0, 10, "happy", 4 / 5⟩] [] [⟨6, -1, 2⟩] []
        ⟨0, 30, " a b"⟩ > 1 / 2 := by
      rw [hfused]; norm_num
    simp only [List.filterMap_cons, List.filterMap_nil]
    rw [if_pos hgt]
  have hdet : detectHighlightMoments [⟨0, 5, "a"⟩, ⟨6, 9, "b"⟩]
      [⟨0, 10, "happy", 4 / 5⟩] [] [⟨6, -1, 2⟩] [] =
      [mkHighlight [⟨0, 10, "happy", 4 / 5⟩] [] [⟨6, -1, 2⟩] []
        ⟨0, 30, " a b"⟩] := by
    unfold detectHighlightMoments
    rw [hcand]
    simp [List.insertionSort]
  refine ⟨by norm_num, htrans, ?_, htop, by norm_num⟩
  rw [htrans]
  exact hdet

/-- C3 (amended): for every segment, given genuine external-model
outputs — emotion-classifier confidences in `[0,1]`,
sentiment-classifier confidences in `[0,1]`, embedding cosine
similarities in `[-1,1]` and normalized visual activity levels in
`[0,1]` — the emotion, sentiment-change and visual-activity per-signal
scores lie in `[0,1]`, while the topic-transition score lies in `[0,2]`
(its intensity is `1 - similarity`, which exceeds 1 for negative
similarities), and the fused score lies in `[0, 1.25]`, not `[0, 1]`. -/
theorem claim_C3_scoreBounds (emotion_peaks : List EmotionPeak)
    (hpeaks : ∀ p ∈ emotion_peaks, 0 ≤ p.confidence ∧ p.confidence ≤ 1)
    (text : List Char) (classify : List Char → String × ℚ)
    (hcls : ∀ chunk, 0 ≤ (classify chunk).2 ∧ (classify chunk).2 ≤ 1)
    (tsegs : List TransSeg) (sim : ℕ → ℚ) (hsim : ∀ i, |sim i| ≤ 1)
    (visual_spikes : List VisualSpike)
    (hspikes : ∀ v ∈ visual_spikes,
      0 ≤ v.activity_level ∧ v.activity_level ≤ 1)
    (seg : TimeSeg) :
    (0 ≤ getEmotionScoreForSegment emotion_peaks seg ∧
      getEmotionScoreForSegment emotion_peaks seg ≤ 1) ∧
    (0 ≤ getSentimentChangeScore
        (detectSentimentChanges (analyzeSentimentSegments text classify))
        seg ∧
      getSentimentChangeScore
        (detectSentimentChanges (analyzeSentimentSegments text classify))
        seg ≤ 1) ∧
    (0 ≤ getTopicTransitionScore (detectTopicTransitions tsegs sim) seg ∧
      getTopicTransitionScore (detectTopicTransitions tsegs sim) seg ≤ 2) ∧
    (0 ≤ getVisualActivityScore visual_spikes seg ∧
      getVisualActivityScore visual_spikes seg ≤ 1) ∧
    (0 ≤ fusedScore emotion_peaks
        (detectSentimentChanges (analyzeSentimentSegments text classify))
        (detectTopicTransitions tsegs sim) visual_spikes seg ∧
      fusedScore emotion_peaks
        (detectSentimentChanges (analyzeSentimentSegments text classify))
        (detectTopicTransitions tsegs sim) visual_spikes seg ≤ 5 / 4) := by
  have he := getEmotionScoreForSegment_bounds emotion_peaks seg hpeaks
  have hs := getSentimentChangeScore_bounds
    (detectSentimentChanges (analyzeSentimentSegments text classify)) seg
    (detectSentimentChanges_intensity _
      (analyzeSentimentSegments_conf text classify hcls))
  have ht := getTopicTransitionScore_bounds
    (detectTopicTransitions tsegs sim) seg
    (detectTopicTransitions_intensity tsegs sim hsim)
  have hv := getVisualActivityScore_bounds visual_spikes seg hspikes
  refine ⟨he, hs, ht, hv, ?_, ?_⟩ <;>
    · unfold fusedScore
      linarith [he.1, he.2, hs.1, hs.2, ht.1, ht.2, hv.1, hv.2]

/-- C3 (witness): the fused-score bound of the amended theorem at
concrete inputs; all four oracle hypotheses are discharged
numerically. -/
theorem claim_C3_scoreBounds_witness :
    0 ≤ fusedScore [⟨0, 10, "happy", 1 / 2⟩]
        (detectSentimentChanges (analyzeSentimentSegments
          [Char.ofNat 104, Char.ofNat 105] fun _ => ("positive", 1 / 2)))
        (detectTopicTransitions [⟨0, 5, "a"⟩, ⟨6, 9, "b"⟩] fun _ => 1 / 2)
        [⟨3, 1 / 3⟩] ⟨0, 30, ""⟩ ∧
      fusedScore [⟨0, 10, "happy", 1 / 2⟩]
        (detectSentimentChanges (analyzeSentimentSegments
          [Char.ofNat 104, Char.ofNat 105] fun _ => ("positive", 1 / 2)))
        (detectTopicTransitions [⟨0, 5, "a"⟩, ⟨6, 9, "b"⟩] fun _ => 1 / 2)
        [⟨3, 1 / 3⟩] ⟨0, 30, ""⟩ ≤ 5 / 4 :=
  (claim_C3_scoreBounds [⟨0, 10, "happy", 1 / 2⟩]
    (by intro p hp; simp only [List.mem_singleton] at hp; subst hp; norm_num)
    [Char.ofNat 104, Char.ofNat 105] (fun _ => ("positive", 1 / 2))
    (by intro chunk; norm_num)
    [⟨0, 5, "a"⟩, ⟨6, 9, "b"⟩] (fun _ => 1 / 2)
    (by intro i; rw [abs_le]; norm_num)
    [⟨3, 1 / 3⟩]
    (by intro v hv; simp only [List.mem_singleton] at hv; subst hv; norm_num)
    ⟨0, 30, ""⟩).2.2.2.2

end PolyglotMedia
